import Mathlib

/-!
Verification of the kubeless function controller (pkg/controller/controller.go)
against its natural-language specification.

The controller is shallowly embedded: every platform API call (get/delete/
ensure of a managed resource) is modelled by an environment field holding the
result that call would return, and each controller function is translated to a
pure Lean function that threads those results through the same control flow as
the Go source, additionally recording the trace of calls it performs as a
`List Action`.  Go's `error` values are modelled by `GoError` (with the
`IsNotFound` distinction the source branches on), a Go runtime panic by the
`Outcome.panicked` result, and Go map mutation of labels by an association
list.
-/

set_option autoImplicit false
set_option linter.unusedVariables false

namespace Kubeless

/-- Constants from controller.go: retry ceiling and the owner-reference
kind/api-group the controller recognises as its own. -/
def maxRetries : Nat := 5

/-- Owner-reference kind recognised by the garbage collector (`funcKind`). -/
def funcKind : String := "Function"

/-- Owner-reference api-group recognised by the garbage collector (`funcAPI`). -/
def funcAPI : String := "kubeless.io"

/-- Model of a Go `error` value as the controller observes it: the only
distinction the controller's control flow makes is `k8sErrors.IsNotFound`,
plus the key-format error produced by `SplitMetaNamespaceKey`. -/
inductive GoError where
  | notFound
  | invalidKey (key : String)
  | msg (s : String)
deriving DecidableEq

/-- `k8sErrors.IsNotFound` on the modelled error. -/
def GoError.isNotFound : GoError → Bool
  | .notFound => true
  | _ => false

/-- Result of running a controller function: `ok` (nil error), `fail e`
(non-nil error returned), or `panicked` (a Go runtime panic, e.g. indexing an
empty slice). -/
inductive Outcome where
  | ok
  | fail (e : GoError)
  | panicked
deriving DecidableEq

/-- `strings.Split` on the single-character separator "/", written on the
character list (structurally recursive).  Like Go, splitting the empty
string yields one empty part. -/
def splitSlash : List Char → List (List Char)
  | [] => [[]]
  | c :: rest =>
    let r := splitSlash rest
    if c = '/' then [] :: r
    else
      match r with
      | [] => [[c]]
      | s :: ss => (c :: s) :: ss

/-- `cache.SplitMetaNamespaceKey` (client-go, an external collaborator of the
controller): split on "/"; one part means name only, two parts mean
namespace/name, anything else is an "unexpected key format" error. -/
def splitMetaNamespaceKey (key : String) : Except GoError (String × String) :=
  match (splitSlash key.data).map (fun cs => String.mk cs) with
  | [name] => .ok ("", name)
  | [ns, name] => .ok (ns, name)
  | _ => .error (.invalidKey key)

/-! ## The rate-limited work queue (client-go workqueue, as used here)

The controller uses only: `Get` (pop), `Forget` (clear the per-key failure
count), `AddRateLimited` (re-enqueue with backoff, incrementing the failure
count) and `NumRequeues` (read the failure count).  The backoff delay itself
is irrelevant to the claims, so `AddRateLimited` is modelled as appending the
key to the pending list; the failure counters are an association list. -/

/-- `queue.NumRequeues(key)`: current failure count, zero when unknown. -/
def numRequeues : List (String × Nat) → String → Nat
  | [], _ => 0
  | p :: rest, k => if p.1 = k then p.2 else numRequeues rest k

/-- `queue.Forget(key)`: erase the key's retry history. -/
def forgetKey : List (String × Nat) → String → List (String × Nat)
  | [], _ => []
  | p :: rest, k =>
    if p.1 = k then forgetKey rest k else p :: forgetKey rest k

/-- The failure-count increment performed by `queue.AddRateLimited(key)`. -/
def bumpKey (r : List (String × Nat)) (k : String) : List (String × Nat) :=
  (k, numRequeues r k + 1) :: forgetKey r k

/-- Work-queue state: pending keys in order, plus per-key failure counts. -/
structure QueueState where
  queue : List String
  retries : List (String × Nat)
deriving DecidableEq

/-- `Controller.processNextItem`, parametrised by the result `processItem`
returns for each key.  Pops the next key; on success the key is forgotten; on
error it is re-enqueued rate-limited while `NumRequeues < maxRetries`, and
otherwise forgotten and dropped (the error only logged).  An empty queue
models the blocked/shut-down `Get` (returns `false`), and a panic in
`processItem` kills the worker (the Go panic unwinds through `runWorker`). -/
def processNextItem (qs : QueueState) (process : String → Outcome) :
    QueueState × Bool :=
  match qs.queue with
  | [] => (qs, false)
  | key :: rest =>
    match process key with
    | .ok => (⟨rest, forgetKey qs.retries key⟩, true)
    | .fail _ =>
      if numRequeues qs.retries key < maxRetries then
        (⟨rest ++ [key], bumpKey qs.retries key⟩, true)
      else
        (⟨rest, forgetKey qs.retries key⟩, true)
    | .panicked => (⟨rest, qs.retries⟩, false)

/-- Iterate `processNextItem` `n` times (the worker loop). -/
def runQueue (n : Nat) (qs : QueueState) (process : String → Outcome) :
    QueueState :=
  match n with
  | 0 => qs
  | n + 1 => runQueue n (processNextItem qs process).1 process

/-! ## Data model -/

/-- The slice of `kubelessApi.Function` the controller's control flow reads:
identity, metadata labels, the trigger `Spec.Type`, and the autoscaling
specification fields tested at lines 255-257 (`HorizontalPodAutoscaler.Name`,
`Spec.ScaleTargetRef.Name`, and the `Type` of each entry of `Spec.Metrics`,
where the object-metric kind is the string "Object"). -/
structure Function where
  ns : String
  name : String
  labels : List (String × String)
  specType : String
  hpaName : String
  hpaScaleTargetRefName : String
  hpaMetricTypes : List String
deriving DecidableEq

/-- `v2beta1.ObjectMetricSourceType`. -/
def objectMetricSourceType : String := "Object"

/-- Platform API calls the controller performs, recorded as a trace.  Each
carries the object name it addresses (the queue key for `enqueue`). -/
inductive Action where
  | getCronJob (name : String)
  | deleteCronJob (name : String)
  | deleteDeployment (name : String)
  | deleteService (name : String)
  | deleteConfigMap (name : String)
  | deleteServiceMonitor (name : String)
  | deleteAutoscale (name : String)
  | ensureConfigMap (name : String)
  | ensureService (name : String)
  | ensureDeployment (name : String)
  | discoverGroupVersion (target : String)
  | ensureCronJob (name : String)
  | createServiceMonitor (name : String)
  | createAutoscale (name : String)
  | enqueue (key : String)
deriving DecidableEq

/-- Go map assignment `labels[k] = v` on the association-list model:
overwrite the entry for `k` if present, otherwise append it. -/
def setLabel : List (String × String) → String → String → List (String × String)
  | [], k, v => [(k, v)]
  | (k', v') :: rest, k, v =>
    if k' = k then (k, v) :: rest else (k', v') :: setLabel rest k v

/-- Label lookup `labels[k]`. -/
def getLabel : List (String × String) → String → Option String
  | [], _ => none
  | p :: rest, k => if p.1 = k then some p.2 else getLabel rest k

/-- Lines 204-207 of ensureK8sResources: replace a nil/empty label map by a
fresh one, then set `labels["function"] = name` on the in-memory object. -/
def normalizeLabels (f : Function) : Function :=
  let ls := if f.labels.isEmpty then [] else f.labels
  { f with labels := setLabel ls "function" f.name }

/-! ## Step combinators

`step` renders the delete-path idiom
`err := call(); if err != nil && !k8sErrors.IsNotFound(err) { return err }`
(the call happens, then not-found is tolerated), and `stepStrict` renders the
ensure-path idiom `err := call(); if err != nil { return err }`.  `rest` is
the continuation's result; the performed call is prepended to its trace. -/

/-- One tolerant call: continue with `rest` unless the result is a
non-not-found error, which aborts with that error. -/
def step (act : Action) (res : Except GoError Unit)
    (rest : Outcome × List Action) : Outcome × List Action :=
  match res with
  | .ok _ => (rest.1, act :: rest.2)
  | .error e => if e.isNotFound then (rest.1, act :: rest.2) else (.fail e, [act])

/-- One strict call: any error aborts with that error. -/
def stepStrict (act : Action) (res : Except GoError Unit)
    (rest : Outcome × List Action) : Outcome × List Action :=
  match res with
  | .ok _ => (rest.1, act :: rest.2)
  | .error e => (.fail e, [act])

/-! ## Delete path -/

instance {ε α : Type} [DecidableEq ε] [DecidableEq α] :
    DecidableEq (Except ε α) := fun a b =>
  match a, b with
  | .ok x, .ok y =>
    if h : x = y then isTrue (by rw [h]) else isFalse (by simp [h])
  | .ok _, .error _ => isFalse (by simp)
  | .error _, .ok _ => isFalse (by simp)
  | .error e, .error e' =>
    if h : e = e' then isTrue (by rw [h]) else isFalse (by simp [h])

/-- Results the platform would return for each call of the delete path.
`smclientPresent` models whether the service-monitor client (`c.smclient`)
is configured (non-nil). -/
structure DeleteEnv where
  cronGet : Except GoError Unit
  cronDelete : Except GoError Unit
  deploymentDelete : Except GoError Unit
  serviceDelete : Except GoError Unit
  configMapDelete : Except GoError Unit
  smclientPresent : Bool
  serviceMonitorDelete : Except GoError Unit
  autoscaleDelete : Except GoError Unit
deriving DecidableEq

/-- `Controller.deleteAutoscale`: delete the service monitor (only when the
monitoring client is configured) then the autoscale object, tolerating
not-found on each. -/
def deleteAutoscale (name : String) (smclientPresent : Bool)
    (smRes hpaRes : Except GoError Unit) : Outcome × List Action :=
  let hpaStep := step (.deleteAutoscale name) hpaRes (.ok, [])
  if smclientPresent then
    step (.deleteServiceMonitor name) smRes hpaStep
  else
    hpaStep

/-- The caller-side idiom wrapped around `deleteAutoscale`'s result (line
325 and line 271): tolerate a not-found error, pass anything else on. -/
def tolerateNotFound (r : Outcome × List Action) : Outcome × List Action :=
  match r.1 with
  | .ok => (.ok, r.2)
  | .fail e => if e.isNotFound then (.ok, r.2) else (.fail e, r.2)
  | .panicked => (.panicked, r.2)

/-- Lines 305-329 of deleteK8sResources (everything after the cronjob
block): delete deployment, service and configmap, each tolerating
not-found, then call `deleteAutoscale` tolerating a not-found result. -/
def deleteTail (name : String) (env : DeleteEnv) : Outcome × List Action :=
  step (.deleteDeployment name) env.deploymentDelete
    (step (.deleteService name) env.serviceDelete
      (step (.deleteConfigMap name) env.configMapDelete
        (tolerateNotFound (deleteAutoscale name env.smclientPresent
          env.serviceMonitorDelete env.autoscaleDelete))))

/-- `Controller.deleteK8sResources`: probe the cronjob `trigger-<name>` and
delete it only if the probe succeeded (any probe error silently skips the
cronjob deletion); then run the rest of the delete path. -/
def deleteK8sResources (ns name : String) (env : DeleteEnv) :
    Outcome × List Action :=
  match env.cronGet with
  | .ok _ =>
    let r := step (.deleteCronJob ("trigger-" ++ name)) env.cronDelete
      (deleteTail name env)
    (r.1, .getCronJob ("trigger-" ++ name) :: r.2)
  | .error _ =>
    ((deleteTail name env).1,
      .getCronJob ("trigger-" ++ name) :: (deleteTail name env).2)

/-! ## Discovery: getResouceGroupVersion (sic, source spelling) -/

/-- One entry of the discovery response `ServerResources()`: a group-version
string together with the names of the API resources it serves. -/
structure APIResourceList where
  groupVersion : String
  apiResources : List String
deriving DecidableEq

/-- The nested scan of `getResouceGroupVersion`: `groupVersion` starts empty;
for each list, if some resource name equals the target, record that list's
group-version (the inner `break` makes at most one assignment per list, so
this equals testing membership); later lists overwrite earlier ones. -/
def scanStep (target : String) (gv : String) (r : APIResourceList) : String :=
  if target ∈ r.apiResources then r.groupVersion else gv

def scanGroupVersion (target : String) (resources : List APIResourceList) :
    String :=
  resources.foldl (scanStep target) ""

/-- `Controller.getResouceGroupVersion`: a discovery error is returned as is;
otherwise the scan runs and an empty result means "Resource <target> not
found in any group". -/
def getResouceGroupVersion
    (discovery : Except GoError (List APIResourceList)) (target : String) :
    Except GoError String :=
  match discovery with
  | .error e => .error e
  | .ok resources =>
    let groupVersion := scanGroupVersion target resources
    if groupVersion = "" then
      .error (.msg ("Resource " ++ target ++ " not found in any group"))
    else
      .ok groupVersion

/-! ## Ensure path -/

/-- Results the platform and the local helpers would return for each step of
the ensure path.  `hasDeploymentConfig` models whether
`c.config.Data["deployment"]` is present; `unmarshalResult`/`mergeResult`
the yaml parse and deployment merge; `ownerRefResult`
`utils.GetOwnerReference`; `discovery` the `ServerResources()` response used
by `getResouceGroupVersion`; the autoscale-delete fields feed the
`deleteAutoscale` call of the no-autoscaler branch. -/
structure EnsureEnv where
  hasDeploymentConfig : Bool
  unmarshalResult : Except GoError Unit
  mergeResult : Except GoError Unit
  ownerRefResult : Except GoError Unit
  ensureConfigMapRes : Except GoError Unit
  ensureServiceRes : Except GoError Unit
  ensureDeploymentRes : Except GoError Unit
  discovery : Except GoError (List APIResourceList)
  ensureCronJobRes : Except GoError Unit
  createServiceMonitorRes : Except GoError Unit
  createAutoscaleRes : Except GoError Unit
  smclientPresent : Bool
  serviceMonitorDelete : Except GoError Unit
  autoscaleDelete : Except GoError Unit
deriving DecidableEq

/-- Lines 255-274 of ensureK8sResources: when the autoscaling specification
names both a target object and a scale-target reference, test
`Spec.Metrics[0].Type` — indexing an empty metric list is a Go runtime panic
(`Outcome.panicked`) — create a service monitor when that first metric is of
object kind, then create the autoscale object; otherwise delete any previous
autoscale pair, tolerating not-found. -/
def hpaPart (f : Function) (env : EnsureEnv) : Outcome × List Action :=
  if f.hpaName ≠ "" ∧ f.hpaScaleTargetRefName ≠ "" then
    match f.hpaMetricTypes with
    | [] => (.panicked, [])
    | t :: _ =>
      if t = objectMetricSourceType then
        stepStrict (.createServiceMonitor f.name) env.createServiceMonitorRes
          (stepStrict (.createAutoscale f.name) env.createAutoscaleRes (.ok, []))
      else
        stepStrict (.createAutoscale f.name) env.createAutoscaleRes (.ok, [])
  else
    tolerateNotFound (deleteAutoscale f.name env.smclientPresent
      env.serviceMonitorDelete env.autoscaleDelete)

/-- Lines 243-253: when the trigger type is "Scheduled", resolve the
group-version of the "cronjobs" resource (failure aborts) and ensure the
cronjob; then in either case fall through to the autoscaling block. -/
def scheduledPart (f : Function) (env : EnsureEnv) : Outcome × List Action :=
  if f.specType = "Scheduled" then
    match getResouceGroupVersion env.discovery "cronjobs" with
    | .error e => (.fail e, [.discoverGroupVersion "cronjobs"])
    | .ok _ =>
      let r := stepStrict (.ensureCronJob f.name) env.ensureCronJobRes
        (hpaPart f env)
      (r.1, .discoverGroupVersion "cronjobs" :: r.2)
  else
    hpaPart f env

/-- Lines 223-253: compute the owner reference (failure aborts), then ensure
configmap, service and deployment in that order, each failure aborting, then
run the scheduled and autoscaling blocks. -/
def mainEnsure (f : Function) (env : EnsureEnv) : Outcome × List Action :=
  match env.ownerRefResult with
  | .error e => (.fail e, [])
  | .ok _ =>
    stepStrict (.ensureConfigMap f.name) env.ensureConfigMapRes
      (stepStrict (.ensureService f.name) env.ensureServiceRes
        (stepStrict (.ensureDeployment f.name) env.ensureDeploymentRes
          (scheduledPart f env)))

/-- `Controller.ensureK8sResources`: normalize the labels on the in-memory
declaration (always, before anything can fail), then, when a cluster-wide
deployment override is configured, parse and merge it (either failure
aborts), then run the main ensure sequence.  Returns the outcome, the
mutated declaration, and the trace of platform calls. -/
def ensureK8sResources (f0 : Function) (env : EnsureEnv) :
    Outcome × Function × List Action :=
  let f := normalizeLabels f0
  let res :=
    if env.hasDeploymentConfig then
      match env.unmarshalResult with
      | .error e => (Outcome.fail e, ([] : List Action))
      | .ok _ =>
        match env.mergeResult with
        | .error e => (Outcome.fail e, ([] : List Action))
        | .ok _ => mainEnsure f env
    else
      mainEnsure f env
  (res.1, f, res.2)

/-! ## processItem -/

/-- `Controller.processItem`: split the key (a malformed key fails with the
split error before any platform call); look the key up in the informer's
local cache (an in-memory store whose `GetByKey` cannot fail, modelled as
`String → Option Function`); absent means the delete path for the split
namespace/name, present means the ensure path on the cached declaration; in
both cases the path's own result is returned. -/
def processItem (cache : String → Option Function) (denv : DeleteEnv)
    (eenv : EnsureEnv) (key : String) : Outcome × List Action :=
  match splitMetaNamespaceKey key with
  | .error e => (.fail e, [])
  | .ok (ns, name) =>
    match cache key with
    | none => deleteK8sResources ns name denv
    | some f =>
      let r := ensureK8sResources f eenv
      (r.1, r.2.2)

/-! ## Garbage-collection sweep -/

/-- An owner reference as read back by the sweep. -/
structure OwnerRef where
  kind : String
  apiVersion : String
  name : String
deriving DecidableEq

/-- A listed object (service, deployment or configmap) as the sweep sees it:
its namespace and its owner-reference list. -/
structure OwnedObject where
  ns : String
  ownerReferences : List OwnerRef
deriving DecidableEq

/-- The per-item loop shared by collectServices, collectDeployment and
collectConfigMap: skip objects with no owner references; when the first
owner reference has kind `funcKind` and api-version `funcAPI`, enqueue the
key `namespace/ownerName`. -/
def collectKeys : List OwnedObject → List Action
  | [] => []
  | o :: rest =>
    match o.ownerReferences with
    | [] => collectKeys rest
    | r :: _ =>
      if r.kind = funcKind ∧ r.apiVersion = funcAPI then
        .enqueue (o.ns ++ "/" ++ r.name) :: collectKeys rest
      else
        collectKeys rest

/-- `Controller.collectServices`: a listing error is returned with nothing
enqueued; otherwise every qualifying object's key is enqueued. -/
def collectServices (listRes : Except GoError (List OwnedObject)) :
    Outcome × List Action :=
  match listRes with
  | .error e => (.fail e, [])
  | .ok objs => (.ok, collectKeys objs)

/-- `Controller.collectDeployment`: same loop over the deployment listing. -/
def collectDeployment (listRes : Except GoError (List OwnedObject)) :
    Outcome × List Action :=
  match listRes with
  | .error e => (.fail e, [])
  | .ok objs => (.ok, collectKeys objs)

/-- `Controller.collectConfigMap`: same loop over the configmap listing. -/
def collectConfigMap (listRes : Except GoError (List OwnedObject)) :
    Outcome × List Action :=
  match listRes with
  | .error e => (.fail e, [])
  | .ok objs => (.ok, collectKeys objs)

/-- `Controller.garbageCollect`: run the three collectors in order, the
first failure aborting the remaining ones. -/
def garbageCollect (svcList depList cmList : Except GoError (List OwnedObject)) :
    Outcome × List Action :=
  let r1 := collectServices svcList
  match r1.1 with
  | .fail e => (.fail e, r1.2)
  | _ =>
    let r2 := collectDeployment depList
    match r2.1 with
    | .fail e => (.fail e, r1.2 ++ r2.2)
    | _ =>
      let r3 := collectConfigMap cmList
      match r3.1 with
      | .fail e => (.fail e, r1.2 ++ r2.2 ++ r3.2)
      | _ => (.ok, r1.2 ++ r2.2 ++ r3.2)

/-! ## Predicates used to state the claims -/

/-- A call result the delete-path idiom tolerates: success or not-found. -/
def toleratedCall : Except GoError Unit → Bool
  | .ok _ => true
  | .error e => e.isNotFound

/-- The cronjob block of the delete path neither returned nor aborted:
either the probe failed (any error silently skips the block) or the probe
succeeded and the deletion result was tolerated. -/
def cronTolerated (env : DeleteEnv) : Bool :=
  match env.cronGet with
  | .error _ => true
  | .ok _ => toleratedCall env.cronDelete

/-- The sweep's per-object test: a non-empty owner-reference list whose
first entry names kind `funcKind` and api-group `funcAPI`. -/
def shouldEnqueue (o : OwnedObject) : Bool :=
  match o.ownerReferences with
  | [] => false
  | r :: _ => r.kind == funcKind && r.apiVersion == funcAPI

/-- The key the sweep derives from an object: `namespace/ownerName`, with
the owner name taken from the first owner reference. -/
def ownerKey (o : OwnedObject) : String :=
  o.ns ++ "/" ++ (o.ownerReferences.headD ⟨"", "", ""⟩).name

/-! ## Shared helper lemmas -/

/-- After a Go map assignment `labels[k] = v`, the key `k` maps to `v`. -/
theorem getLabel_setLabel (ls : List (String × String)) (k v : String) :
    getLabel (setLabel ls k v) k = some v := by
  induction ls with
  | nil => simp [getLabel, setLabel]
  | cons p rest ih =>
    obtain ⟨a, b⟩ := p
    by_cases h : a = k
    · simp [setLabel, getLabel, h]
    · simpa [setLabel, getLabel, h] using ih

/-- `Forget` zeroes the failure count. -/
theorem numRequeues_forgetKey (r : List (String × Nat)) (k : String) :
    numRequeues (forgetKey r k) k = 0 := by
  induction r with
  | nil => rfl
  | cons p rest ih =>
    by_cases h : p.1 = k
    · simpa [forgetKey, h] using ih
    · simpa [forgetKey, numRequeues, h] using ih

/-- `AddRateLimited` increments the failure count by one. -/
theorem numRequeues_bumpKey (r : List (String × Nat)) (k : String) :
    numRequeues (bumpKey r k) k = numRequeues r k + 1 := by
  simp [bumpKey, numRequeues]

/-! ## Claim theorems -/

/-- C8: for every Function declaration passed to the ensure path (with any
environment, hence whatever else succeeds or fails), after the
label-normalization step the declaration's in-memory labels map "function"
to the declaration's own name — including when it initially has no labels,
since the normalization covers the empty map. -/
theorem ensure_function_label (f : Function) (env : EnsureEnv) :
    getLabel (ensureK8sResources f env).2.1.labels "function" = some f.name := by
  have h : (ensureK8sResources f env).2.1 = normalizeLabels f := by
    simp [ensureK8sResources]
  rw [h]
  exact getLabel_setLabel _ _ _

/-- C2: a Function whose autoscaling specification names a target object and
a non-empty scale-target reference but has an empty metric list drives the
ensure path into indexing `Spec.Metrics[0]` on an empty slice: the code
panics instead of failing closed, even when every platform call would
succeed. -/
theorem ensure_emptyMetrics_panics :
    (ensureK8sResources
      ⟨"default", "foo", [], "HTTP", "foo-hpa", "foo", []⟩
      ⟨false, .ok (), .ok (), .ok (), .ok (), .ok (), .ok (),
        .ok [⟨"batch/v2alpha1", ["cronjobs"]⟩], .ok (), .ok (), .ok (),
        true, .ok (), .ok ()⟩).1 = .panicked := by
  decide

/-- C4: for every well-formed key, processing dispatches on the Watch
Source's cache: when the key is absent the delete path is invoked for the
split namespace/name and its result (outcome and call trace) is the
attempt's result; when present, the ensure path runs on the cached
declaration and its result is the attempt's result. -/
theorem processItem_dispatch (key ns name : String)
    (cache : String → Option Function) (denv : DeleteEnv) (eenv : EnsureEnv)
    (hsplit : splitMetaNamespaceKey key = .ok (ns, name)) :
    (cache key = none →
      processItem cache denv eenv key = deleteK8sResources ns name denv) ∧
    (∀ f, cache key = some f →
      processItem cache denv eenv key =
        ((ensureK8sResources f eenv).1, (ensureK8sResources f eenv).2.2)) := by
  constructor
  · intro hc
    simp [processItem, hsplit, hc]
  · intro f hc
    simp [processItem, hsplit, hc]

/-- Witness for C4 at the key "default/foo", exercising both the absent and
the present branch of the dispatch. -/
theorem processItem_dispatch_witness :
    (processItem (fun _ => none)
      ⟨.ok (), .ok (), .ok (), .ok (), .ok (), true, .ok (), .ok ()⟩
      ⟨false, .ok (), .ok (), .ok (), .ok (), .ok (), .ok (), .ok [],
        .ok (), .ok (), .ok (), true, .ok (), .ok ()⟩
      "default/foo" =
      deleteK8sResources "default" "foo"
        ⟨.ok (), .ok (), .ok (), .ok (), .ok (), true, .ok (), .ok ()⟩) ∧
    (processItem (fun _ => some ⟨"default", "foo", [], "HTTP", "", "", []⟩)
      ⟨.ok (), .ok (), .ok (), .ok (), .ok (), true, .ok (), .ok ()⟩
      ⟨false, .ok (), .ok (), .ok (), .ok (), .ok (), .ok (), .ok [],
        .ok (), .ok (), .ok (), true, .ok (), .ok ()⟩
      "default/foo" =
      ((ensureK8sResources ⟨"default", "foo", [], "HTTP", "", "", []⟩
          ⟨false, .ok (), .ok (), .ok (), .ok (), .ok (), .ok (), .ok [],
            .ok (), .ok (), .ok (), true, .ok (), .ok ()⟩).1,
        (ensureK8sResources ⟨"default", "foo", [], "HTTP", "", "", []⟩
          ⟨false, .ok (), .ok (), .ok (), .ok (), .ok (), .ok (), .ok [],
            .ok (), .ok (), .ok (), true, .ok (), .ok ()⟩).2.2)) := by
  constructor
  · exact (processItem_dispatch "default/foo" "default" "foo" _ _ _
      (by decide)).1 rfl
  · exact (processItem_dispatch "default/foo" "default" "foo" _ _ _
      (by decide)).2 _ rfl

/-- C3: while a key's failure count is strictly below 5 a failing attempt
re-enqueues it rate-limited and increments the count; once the count has
reached 5 a failing attempt clears the retry history and drops the key; a
successful attempt always clears the retry history; and a key failing on
every attempt is gone after 6 cycles and never reappears on its own. -/
theorem retry_ceiling (k : String) (process : String → Outcome) (e : GoError)
    (hfail : process k = .fail e) :
    (∀ qs : QueueState, ∀ rest : List String, qs.queue = k :: rest →
      numRequeues qs.retries k < 5 →
      (processNextItem qs process).1.queue = rest ++ [k] ∧
      numRequeues (processNextItem qs process).1.retries k
        = numRequeues qs.retries k + 1) ∧
    (∀ qs : QueueState, ∀ rest : List String, qs.queue = k :: rest →
      5 ≤ numRequeues qs.retries k →
      (processNextItem qs process).1.queue = rest ∧
      numRequeues (processNextItem qs process).1.retries k = 0) ∧
    (∀ succ : String → Outcome, succ k = .ok →
      ∀ qs : QueueState, ∀ rest : List String, qs.queue = k :: rest →
      numRequeues (processNextItem qs succ).1.retries k = 0) ∧
    (runQueue 6 ⟨[k], []⟩ process = ⟨[], []⟩) ∧
    (∀ j, runQueue j ⟨[], []⟩ process = ⟨[], []⟩) := by
  refine ⟨?_, ?_, ?_, ?_, ?_⟩
  · rintro ⟨q, r⟩ rest hq hlow
    dsimp at hq
    subst hq
    simp [processNextItem, hfail, maxRetries, hlow, numRequeues_bumpKey]
  · rintro ⟨q, r⟩ rest hq hhigh
    dsimp at hq
    subst hq
    simp [processNextItem, hfail, maxRetries, Nat.not_lt.mpr hhigh,
      numRequeues_forgetKey]
  · rintro succ hsucc ⟨q, r⟩ rest hq
    dsimp at hq
    subst hq
    simp [processNextItem, hsucc, numRequeues_forgetKey]
  · simp [runQueue, processNextItem, hfail, maxRetries, numRequeues, bumpKey,
      forgetKey]
  · intro j
    induction j with
    | zero => rfl
    | succ n ih => simpa [runQueue, processNextItem] using ih

/-- Witness for C3: a key failing every attempt with a fresh retry history is
re-enqueued on the first failure and the queue is empty for good after six
cycles. -/
theorem retry_ceiling_witness :
    (processNextItem ⟨["default/foo"], []⟩
      (fun _ => .fail (.msg "boom"))).1.queue = [] ++ ["default/foo"] ∧
    runQueue 6 ⟨["default/foo"], []⟩ (fun _ => .fail (.msg "boom"))
      = ⟨[], []⟩ := by
  refine ⟨?_, ?_⟩
  · exact ((retry_ceiling "default/foo" _ (.msg "boom") rfl).1
      ⟨["default/foo"], []⟩ [] rfl (by decide)).1
  · exact (retry_ceiling "default/foo" _ (.msg "boom") rfl).2.2.2.1

/-- C1 (amended): a malformed key fails immediately with the split error and
performs no platform call, but the failure is retried like any other error:
while the key's failure count is below the ceiling, the worker re-enqueues
it rate-limited with the count incremented (it is dropped only once the
ceiling is reached). -/
theorem invalidKey_retried (key : String) (e : GoError)
    (cache : String → Option Function) (denv : DeleteEnv) (eenv : EnsureEnv)
    (hbad : splitMetaNamespaceKey key = .error e)
    (qs : QueueState) (rest : List String) (hq : qs.queue = key :: rest)
    (hlow : numRequeues qs.retries key < 5) :
    processItem cache denv eenv key = (.fail e, []) ∧
    (processNextItem qs (fun s => (processItem cache denv eenv s).1)).1.queue
      = rest ++ [key] ∧
    numRequeues
      (processNextItem qs
        (fun s => (processItem cache denv eenv s).1)).1.retries key
      = numRequeues qs.retries key + 1 := by
  have hp : processItem cache denv eenv key = (.fail e, []) := by
    simp [processItem, hbad]
  obtain ⟨q, r⟩ := qs
  dsimp at hq
  subst hq
  refine ⟨hp, ?_, ?_⟩ <;>
    simp [processNextItem, hp, maxRetries, hlow, numRequeues_bumpKey]

/-- Witness for C1's amended statement at the malformed key "a/b/c". -/
theorem invalidKey_retried_witness :
    processItem (fun _ => none)
      ⟨.ok (), .ok (), .ok (), .ok (), .ok (), true, .ok (), .ok ()⟩
      ⟨false, .ok (), .ok (), .ok (), .ok (), .ok (), .ok (), .ok [],
        .ok (), .ok (), .ok (), true, .ok (), .ok ()⟩ "a/b/c"
      = (.fail (.invalidKey "a/b/c"), []) ∧
    (processNextItem ⟨["a/b/c"], []⟩
      (fun s => (processItem (fun _ => none)
        ⟨.ok (), .ok (), .ok (), .ok (), .ok (), true, .ok (), .ok ()⟩
        ⟨false, .ok (), .ok (), .ok (), .ok (), .ok (), .ok (), .ok [],
          .ok (), .ok (), .ok (), true, .ok (), .ok ()⟩ s).1)).1.queue
      = [] ++ ["a/b/c"] ∧
    numRequeues
      (processNextItem ⟨["a/b/c"], []⟩
        (fun s => (processItem (fun _ => none)
          ⟨.ok (), .ok (), .ok (), .ok (), .ok (), true, .ok (), .ok ()⟩
          ⟨false, .ok (), .ok (), .ok (), .ok (), .ok (), .ok (), .ok [],
            .ok (), .ok (), .ok (), true, .ok (), .ok ()⟩ s).1)).1.retries
      "a/b/c"
      = numRequeues ([] : List (String × Nat)) "a/b/c" + 1 := by
  exact invalidKey_retried "a/b/c" (.invalidKey "a/b/c") _ _ _ (by decide)
    ⟨["a/b/c"], []⟩ [] rfl (by decide)

/-- C1 counterexample: the malformed key "a/b/c" is NOT dropped on its first
failure — the worker re-enqueues it with a failure count of 1, contradicting
"never retried: logged and dropped rather than re-enqueued with backoff". -/
theorem invalidKey_retried_counterexample :
    (processItem (fun _ => none)
      ⟨.ok (), .ok (), .ok (), .ok (), .ok (), true, .ok (), .ok ()⟩
      ⟨false, .ok (), .ok (), .ok (), .ok (), .ok (), .ok (), .ok [],
        .ok (), .ok (), .ok (), true, .ok (), .ok ()⟩ "a/b/c").1
      = .fail (.invalidKey "a/b/c") ∧
    (processNextItem ⟨["a/b/c"], []⟩
      (fun s => (processItem (fun _ => none)
        ⟨.ok (), .ok (), .ok (), .ok (), .ok (), true, .ok (), .ok ()⟩
        ⟨false, .ok (), .ok (), .ok (), .ok (), .ok (), .ok (), .ok [],
          .ok (), .ok (), .ok (), true, .ok (), .ok ()⟩ s).1)).1
      = ⟨["a/b/c"], [("a/b/c", 1)]⟩ := by
  decide

/-- C6: in the ensure path (with the deployment-override parse/merge and the
owner-reference computation succeeding), the configuration object, the
service and the deployment are ensured in exactly that order; the first
failing ensure step is the attempt's error and its call is the last one in
the trace — in particular no scheduled-job or autoscaling call follows a
failure; when all three succeed, the scheduled/autoscaling block runs right
after them. -/
theorem ensure_order_abort (f : Function) (env : EnsureEnv)
    (hu : env.unmarshalResult = .ok ())
    (hm : env.mergeResult = .ok ())
    (ho : env.ownerRefResult = .ok ()) :
    (∀ e, env.ensureConfigMapRes = .error e →
      (ensureK8sResources f env).1 = .fail e ∧
      (ensureK8sResources f env).2.2 = [.ensureConfigMap f.name]) ∧
    (∀ e, env.ensureConfigMapRes = .ok () → env.ensureServiceRes = .error e →
      (ensureK8sResources f env).1 = .fail e ∧
      (ensureK8sResources f env).2.2
        = [.ensureConfigMap f.name, .ensureService f.name]) ∧
    (∀ e, env.ensureConfigMapRes = .ok () → env.ensureServiceRes = .ok () →
      env.ensureDeploymentRes = .error e →
      (ensureK8sResources f env).1 = .fail e ∧
      (ensureK8sResources f env).2.2
        = [.ensureConfigMap f.name, .ensureService f.name,
            .ensureDeployment f.name]) ∧
    (env.ensureConfigMapRes = .ok () → env.ensureServiceRes = .ok () →
      env.ensureDeploymentRes = .ok () →
      (ensureK8sResources f env).1 = (scheduledPart (normalizeLabels f) env).1 ∧
      (ensureK8sResources f env).2.2
        = .ensureConfigMap f.name :: .ensureService f.name ::
            .ensureDeployment f.name ::
            (scheduledPart (normalizeLabels f) env).2) := by
  refine ⟨?_, ?_, ?_, ?_⟩
  · intro e hcm
    cases hdc : env.hasDeploymentConfig <;>
      simp [ensureK8sResources, mainEnsure, stepStrict, hdc, hu, hm, ho, hcm,
        normalizeLabels]
  · intro e hcm hsvc
    cases hdc : env.hasDeploymentConfig <;>
      simp [ensureK8sResources, mainEnsure, stepStrict, hdc, hu, hm, ho, hcm,
        hsvc, normalizeLabels]
  · intro e hcm hsvc hdep
    cases hdc : env.hasDeploymentConfig <;>
      simp [ensureK8sResources, mainEnsure, stepStrict, hdc, hu, hm, ho, hcm,
        hsvc, hdep, normalizeLabels]
  · intro hcm hsvc hdep
    cases hdc : env.hasDeploymentConfig <;>
      simp [ensureK8sResources, mainEnsure, stepStrict, hdc, hu, hm, ho, hcm,
        hsvc, hdep, normalizeLabels]

/-- Witness for C6: a failing service ensure aborts the path with exactly
configmap-then-service in the trace. -/
theorem ensure_order_abort_witness :
    (ensureK8sResources ⟨"default", "foo", [], "Scheduled", "", "", []⟩
      ⟨true, .ok (), .ok (), .ok (), .ok (), .error (.msg "svc boom"),
        .ok (), .ok [⟨"batch/v2alpha1", ["cronjobs"]⟩], .ok (), .ok (),
        .ok (), false, .ok (), .ok ()⟩).1 = .fail (.msg "svc boom") ∧
    (ensureK8sResources ⟨"default", "foo", [], "Scheduled", "", "", []⟩
      ⟨true, .ok (), .ok (), .ok (), .ok (), .error (.msg "svc boom"),
        .ok (), .ok [⟨"batch/v2alpha1", ["cronjobs"]⟩], .ok (), .ok (),
        .ok (), false, .ok (), .ok ()⟩).2.2
      = [.ensureConfigMap "foo", .ensureService "foo"] := by
  exact (ensure_order_abort ⟨"default", "foo", [], "Scheduled", "", "", []⟩
    _ rfl rfl rfl).2.1 (.msg "svc boom") rfl rfl

/-- If no list contains the target, the scan keeps its accumulator. -/
theorem scan_no_match (target : String) (lists : List APIResourceList)
    (acc : String) (h : ∀ r ∈ lists, target ∉ r.apiResources) :
    lists.foldl (scanStep target) acc = acc := by
  induction lists generalizing acc with
  | nil => rfl
  | cons r rest ih =>
    have hr : target ∉ r.apiResources := h r (by simp)
    simp only [List.foldl_cons, scanStep, if_neg hr]
    exact ih acc (fun r' hr' => h r' (by simp [hr']))

/-- The scan only ever overwrites the accumulator with a group-version of
one of the lists, so a non-empty accumulator stays non-empty when every
list's group-version is non-empty. -/
theorem scan_acc_ne (target : String) (lists : List APIResourceList) :
    ∀ acc : String, (∀ r ∈ lists, r.groupVersion ≠ "") → acc ≠ "" →
    lists.foldl (scanStep target) acc ≠ "" := by
  induction lists with
  | nil => intro acc _ hacc; exact hacc
  | cons r rest ih =>
    intro acc hgv hacc
    have hr : r.groupVersion ≠ "" := hgv r (by simp)
    have hrest : ∀ r' ∈ rest, r'.groupVersion ≠ "" :=
      fun r' hr' => hgv r' (by simp [hr'])
    by_cases hm : target ∈ r.apiResources
    · simp only [List.foldl_cons, scanStep, if_pos hm]
      exact ih r.groupVersion hrest hr
    · simp only [List.foldl_cons, scanStep, if_neg hm]
      exact ih acc hrest hacc

/-- If some list contains the target and all group-versions are non-empty,
the scan result is non-empty. -/
theorem scan_match_ne (target : String) (lists : List APIResourceList) :
    ∀ acc : String, (∀ r ∈ lists, r.groupVersion ≠ "") →
    (∃ r ∈ lists, target ∈ r.apiResources) →
    lists.foldl (scanStep target) acc ≠ "" := by
  induction lists with
  | nil => intro acc _ hmatch; simp at hmatch
  | cons r rest ih =>
    intro acc hgv hmatch
    have hr : r.groupVersion ≠ "" := hgv r (by simp)
    have hrest : ∀ r' ∈ rest, r'.groupVersion ≠ "" :=
      fun r' hr' => hgv r' (by simp [hr'])
    by_cases hm : target ∈ r.apiResources
    · simp only [List.foldl_cons, scanStep, if_pos hm]
      exact scan_acc_ne target rest r.groupVersion hrest hr
    · simp only [List.foldl_cons, scanStep, if_neg hm]
      obtain ⟨r', hr', hmem⟩ := hmatch
      rcases List.mem_cons.mp hr' with h | h
      · exact absurd (h ▸ hmem) hm
      · exact ih acc hrest ⟨r', h, hmem⟩

/-- The scan returns the group-version of the last matching list. -/
theorem scan_last_match (target : String) (pre post : List APIResourceList)
    (r : APIResourceList) (acc : String) (hr : target ∈ r.apiResources)
    (hpost : ∀ r' ∈ post, target ∉ r'.apiResources) :
    (pre ++ r :: post).foldl (scanStep target) acc = r.groupVersion := by
  induction pre generalizing acc with
  | nil =>
    simp only [List.nil_append, List.foldl_cons, scanStep, if_pos hr]
    exact scan_no_match target post r.groupVersion hpost
  | cons p pre' ih =>
    simp only [List.cons_append, List.foldl_cons]
    exact ih _

/-- C9 (amended): over a successful discovery response in which every list
carries a non-empty group-version string, the lookup errors exactly when no
list contains the target resource name, and when matches exist the returned
group-version is that of the last matching list in discovery order (the
scan does not stop at the first match).  An empty group-version string is
what the code uses as its "not found" sentinel, so a matching list with an
empty group-version is indistinguishable from absence. -/
theorem groupVersion_lookup (target : String) (lists : List APIResourceList)
    (hgv : ∀ r ∈ lists, r.groupVersion ≠ "") :
    ((∃ e, getResouceGroupVersion (.ok lists) target = .error e) ↔
      ∀ r ∈ lists, target ∉ r.apiResources) ∧
    (∀ pre r post, lists = pre ++ r :: post → target ∈ r.apiResources →
      (∀ r' ∈ post, target ∉ r'.apiResources) →
      getResouceGroupVersion (.ok lists) target = .ok r.groupVersion) := by
  constructor
  · constructor
    · intro ⟨e, he⟩
      by_contra hnot
      push_neg at hnot
      obtain ⟨r, hrmem, hrtgt⟩ := hnot
      have hne : scanGroupVersion target lists ≠ "" :=
        scan_match_ne target lists "" hgv ⟨r, hrmem, hrtgt⟩
      simp [getResouceGroupVersion, hne] at he
    · intro h
      have hz : scanGroupVersion target lists = "" :=
        scan_no_match target lists "" h
      exact ⟨.msg ("Resource " ++ target ++ " not found in any group"),
        by simp [getResouceGroupVersion, hz]⟩
  · intro pre r post hsplit hr hpost
    subst hsplit
    have hscan : scanGroupVersion target (pre ++ r :: post) = r.groupVersion :=
      scan_last_match target pre post r "" hr hpost
    have hne : r.groupVersion ≠ "" := hgv r (by simp)
    simp [getResouceGroupVersion, hscan, hne]

/-- Witness for C9's amended statement: with two lists serving "cronjobs",
the later one's group-version is returned. -/
theorem groupVersion_lookup_witness :
    getResouceGroupVersion
      (.ok [⟨"batch/v1", ["jobs"]⟩, ⟨"batch/v2alpha1", ["cronjobs"]⟩,
            ⟨"batch/v2alpha2", ["cronjobs"]⟩]) "cronjobs"
      = .ok "batch/v2alpha2" := by
  exact (groupVersion_lookup "cronjobs"
      [⟨"batch/v1", ["jobs"]⟩, ⟨"batch/v2alpha1", ["cronjobs"]⟩,
        ⟨"batch/v2alpha2", ["cronjobs"]⟩] (by decide)).2
    [⟨"batch/v1", ["jobs"]⟩, ⟨"batch/v2alpha1", ["cronjobs"]⟩]
    ⟨"batch/v2alpha2", ["cronjobs"]⟩ [] rfl (by decide) (by decide)

/-- C9 counterexample: the claim's "errors exactly when no discovered list
contains a resource named the target" fails on a discovery response whose
single list contains "cronjobs" but carries an empty group-version string:
the lookup still errors. -/
theorem groupVersion_emptyGV_counterexample :
    "cronjobs" ∈ (APIResourceList.mk "" ["cronjobs"]).apiResources ∧
    getResouceGroupVersion (.ok [⟨"", ["cronjobs"]⟩]) "cronjobs"
      = .error (.msg "Resource cronjobs not found in any group") := by
  decide

/-- A tolerated call lets the continuation's result through, prefixing its
own action to the trace. -/
theorem step_tolerated (act : Action) (res : Except GoError Unit)
    (rest : Outcome × List Action) (h : toleratedCall res = true) :
    step act res rest = (rest.1, act :: rest.2) := by
  cases res with
  | ok u => simp [step]
  | error e =>
    unfold toleratedCall at h
    dsimp only at h
    simp [step, h]

/-- A non-not-found error aborts the sequence at its own call. -/
theorem step_failed (act : Action) (e : GoError)
    (rest : Outcome × List Action) (he : e.isNotFound = false) :
    step act (.error e) rest = (.fail e, [act]) := by
  simp [step, he]

/-- Everything in a step's trace is its own action or comes from the
continuation. -/
theorem step_trace_sub (act : Action) (res : Except GoError Unit)
    (rest : Outcome × List Action) :
    ∀ a ∈ (step act res rest).2, a = act ∨ a ∈ rest.2 := by
  intro a ha
  cases res with
  | ok u =>
    simp only [step, List.mem_cons] at ha
    exact ha
  | error e =>
    by_cases he : e.isNotFound = true
    · simp only [step, he, if_true, List.mem_cons] at ha
      exact ha
    · have he' : e.isNotFound = false := by simpa using he
      simp only [step, he', Bool.false_eq_true, if_false, List.mem_cons,
        List.not_mem_nil, or_false] at ha
      exact Or.inl ha

/-- The not-found wrapper keeps the wrapped trace unchanged. -/
theorem tolerateNotFound_trace (r : Outcome × List Action) :
    (tolerateNotFound r).2 = r.2 := by
  rcases r with ⟨o, t⟩
  cases o with
  | ok => rfl
  | fail e =>
    unfold tolerateNotFound
    dsimp only
    split <;> rfl
  | panicked => rfl

/-- A non-not-found failure passes through the not-found wrapper. -/
theorem tolerateNotFound_fail (r : Outcome × List Action) (e : GoError)
    (he : e.isNotFound = false) (h : r.1 = .fail e) :
    (tolerateNotFound r).1 = .fail e := by
  unfold tolerateNotFound
  rw [h]
  simp [he]

/-- The autoscale-deletion pair only deletes the service monitor and the
autoscale object. -/
theorem mem_deleteAutoscale (name : String) (p : Bool)
    (smRes hpaRes : Except GoError Unit) :
    ∀ a ∈ (deleteAutoscale name p smRes hpaRes).2,
      a = .deleteServiceMonitor name ∨ a = .deleteAutoscale name := by
  intro a ha
  unfold deleteAutoscale at ha
  cases p with
  | false =>
    simp only [Bool.false_eq_true, if_false] at ha
    rcases step_trace_sub _ _ _ a ha with h | ha'
    · exact Or.inr h
    · simp at ha'
  | true =>
    simp only [if_true] at ha
    rcases step_trace_sub _ _ _ a ha with h | ha'
    · exact Or.inl h
    · rcases step_trace_sub _ _ _ a ha' with h | ha''
      · exact Or.inr h
      · simp at ha''

/-- Every call of the delete tail is one of its five fixed deletions — in
particular never a cronjob one. -/
theorem mem_deleteTail (name : String) (env : DeleteEnv) :
    ∀ a ∈ (deleteTail name env).2,
      a = .deleteDeployment name ∨ a = .deleteService name ∨
      a = .deleteConfigMap name ∨ a = .deleteServiceMonitor name ∨
      a = .deleteAutoscale name := by
  intro a ha
  unfold deleteTail at ha
  rcases step_trace_sub _ _ _ a ha with h | ha
  · exact Or.inl h
  rcases step_trace_sub _ _ _ a ha with h | ha
  · exact Or.inr (Or.inl h)
  rcases step_trace_sub _ _ _ a ha with h | ha
  · exact Or.inr (Or.inr (Or.inl h))
  rw [tolerateNotFound_trace] at ha
  rcases mem_deleteAutoscale name _ _ _ a ha with h | h
  · exact Or.inr (Or.inr (Or.inr (Or.inl h)))
  · exact Or.inr (Or.inr (Or.inr (Or.inr h)))

/-- When the cronjob block neither returned nor aborted, the attempt's
outcome is the delete tail's outcome. -/
theorem delete_outcome_of_tail (ns name : String) (env : DeleteEnv)
    (hc : cronTolerated env = true) :
    (deleteK8sResources ns name env).1 = (deleteTail name env).1 := by
  unfold cronTolerated at hc
  unfold deleteK8sResources
  cases hg : env.cronGet with
  | error e => rfl
  | ok u =>
    rw [hg] at hc
    dsimp only at hc
    dsimp only
    rw [step_tolerated _ _ _ hc]

/-- C10: the cronjob deletion is attempted exactly when the preliminary get
of `trigger-<name>` succeeded; any probe error — a transient API failure as
much as not-found — makes the delete path silently skip the cronjob
deletion and otherwise behave exactly as if the probe had answered
not-found, neither aborting nor surfacing the probe's error. -/
theorem cron_probe_gates_delete (ns name : String) (env : DeleteEnv) :
    (env.cronGet = .ok () →
      Action.deleteCronJob ("trigger-" ++ name)
        ∈ (deleteK8sResources ns name env).2) ∧
    (∀ e, env.cronGet = .error e →
      Action.deleteCronJob ("trigger-" ++ name)
        ∉ (deleteK8sResources ns name env).2 ∧
      deleteK8sResources ns name env
        = deleteK8sResources ns name
            { env with cronGet := .error .notFound }) := by
  constructor
  · intro h
    simp only [deleteK8sResources, h]
    cases hcd : env.cronDelete with
    | ok u => simp [step]
    | error e =>
      by_cases he : e.isNotFound = true
      · simp [step, he]
      · have he' : e.isNotFound = false := by simpa using he
        simp [step, he']
  · intro e h
    constructor
    · simp only [deleteK8sResources, h]
      intro hmem
      rcases List.mem_cons.mp hmem with habs | hmem'
      · exact Action.noConfusion habs
      · rcases mem_deleteTail name env _ hmem' with h' | h' | h' | h' | h' <;>
          exact Action.noConfusion h'
    · simp only [deleteK8sResources, h]
      rfl

/-- Witness for C10 at a probe failing with a transient error: the cronjob
deletion is skipped and the outcome is untouched. -/
theorem cron_probe_gates_delete_witness :
    Action.deleteCronJob ("trigger-" ++ "foo")
      ∉ (deleteK8sResources "default" "foo"
          ⟨.error (.msg "timeout"), .ok (), .error .notFound, .error .notFound,
            .error .notFound, false, .error .notFound, .error .notFound⟩).2 ∧
    deleteK8sResources "default" "foo"
        ⟨.error (.msg "timeout"), .ok (), .error .notFound, .error .notFound,
          .error .notFound, false, .error .notFound, .error .notFound⟩
      = deleteK8sResources "default" "foo"
          ⟨.error .notFound, .ok (), .error .notFound, .error .notFound,
            .error .notFound, false, .error .notFound, .error .notFound⟩ := by
  exact (cron_probe_gates_delete "default" "foo"
    ⟨.error (.msg "timeout"), .ok (), .error .notFound, .error .notFound,
      .error .notFound, false, .error .notFound, .error .notFound⟩).2
    (.msg "timeout") rfl

/-- C5: when all the probe/deletes of the delete path answer not-found —
none of the managed resources exist — the path succeeds; and any delete
error other than not-found aborts the path with that error as the attempt's
result, the failing call being the last one of the (tail) trace so that no
later deletion is attempted.  The service-monitor clause requires the
monitoring client to be configured, the autoscale clause is stated both for
an absent client and for a tolerated service-monitor deletion. -/
theorem delete_idempotent_abort (ns name : String) (env : DeleteEnv) :
    (env.cronGet = .error .notFound →
     env.deploymentDelete = .error .notFound →
     env.serviceDelete = .error .notFound →
     env.configMapDelete = .error .notFound →
     env.serviceMonitorDelete = .error .notFound →
     env.autoscaleDelete = .error .notFound →
     (deleteK8sResources ns name env).1 = .ok) ∧
    (∀ e, e.isNotFound = false → env.cronGet = .ok () →
     env.cronDelete = .error e →
     deleteK8sResources ns name env
       = (.fail e, [.getCronJob ("trigger-" ++ name),
                    .deleteCronJob ("trigger-" ++ name)])) ∧
    (∀ e, e.isNotFound = false → cronTolerated env = true →
     env.deploymentDelete = .error e →
     (deleteK8sResources ns name env).1 = .fail e ∧
     deleteTail name env = (.fail e, [.deleteDeployment name])) ∧
    (∀ e, e.isNotFound = false → cronTolerated env = true →
     toleratedCall env.deploymentDelete = true →
     env.serviceDelete = .error e →
     (deleteK8sResources ns name env).1 = .fail e ∧
     deleteTail name env
       = (.fail e, [.deleteDeployment name, .deleteService name])) ∧
    (∀ e, e.isNotFound = false → cronTolerated env = true →
     toleratedCall env.deploymentDelete = true →
     toleratedCall env.serviceDelete = true →
     env.configMapDelete = .error e →
     (deleteK8sResources ns name env).1 = .fail e ∧
     deleteTail name env
       = (.fail e, [.deleteDeployment name, .deleteService name,
                    .deleteConfigMap name])) ∧
    (∀ e, e.isNotFound = false → cronTolerated env = true →
     toleratedCall env.deploymentDelete = true →
     toleratedCall env.serviceDelete = true →
     toleratedCall env.configMapDelete = true →
     env.smclientPresent = true →
     env.serviceMonitorDelete = .error e →
     (deleteK8sResources ns name env).1 = .fail e ∧
     deleteTail name env
       = (.fail e, [.deleteDeployment name, .deleteService name,
                    .deleteConfigMap name, .deleteServiceMonitor name])) ∧
    (∀ e, e.isNotFound = false → cronTolerated env = true →
     toleratedCall env.deploymentDelete = true →
     toleratedCall env.serviceDelete = true →
     toleratedCall env.configMapDelete = true →
     env.smclientPresent = false →
     env.autoscaleDelete = .error e →
     (deleteK8sResources ns name env).1 = .fail e) ∧
    (∀ e, e.isNotFound = false → cronTolerated env = true →
     toleratedCall env.deploymentDelete = true →
     toleratedCall env.serviceDelete = true →
     toleratedCall env.configMapDelete = true →
     env.smclientPresent = true →
     toleratedCall env.serviceMonitorDelete = true →
     env.autoscaleDelete = .error e →
     (deleteK8sResources ns name env).1 = .fail e) := by
  have htolNF : toleratedCall (Except.error GoError.notFound) = true := rfl
  refine ⟨?_, ?_, ?_, ?_, ?_, ?_, ?_, ?_⟩
  · intro h1 h2 h3 h4 h5 h6
    have hct : cronTolerated env = true := by
      unfold cronTolerated
      rw [h1]
    rw [delete_outcome_of_tail ns name env hct]
    have hstep : (deleteAutoscale name env.smclientPresent
        env.serviceMonitorDelete env.autoscaleDelete).1 = .ok := by
      unfold deleteAutoscale
      rw [h5, h6]
      cases hp : env.smclientPresent <;>
        simp [step, GoError.isNotFound]
    unfold deleteTail
    rw [h2, h3, h4, step_tolerated _ _ _ htolNF, step_tolerated _ _ _ htolNF,
      step_tolerated _ _ _ htolNF]
    unfold tolerateNotFound
    rw [hstep]
  · intro e he hg hd
    simp only [deleteK8sResources, hg, hd]
    rw [step_failed _ _ _ he]
  · intro e he hct hd
    have htail : deleteTail name env = (.fail e, [.deleteDeployment name]) := by
      unfold deleteTail
      rw [hd, step_failed _ _ _ he]
    exact ⟨by rw [delete_outcome_of_tail ns name env hct, htail], htail⟩
  · intro e he hct hdd hsd
    have htail : deleteTail name env
        = (.fail e, [.deleteDeployment name, .deleteService name]) := by
      unfold deleteTail
      rw [hsd, step_failed _ _ _ he, step_tolerated _ _ _ hdd]
    exact ⟨by rw [delete_outcome_of_tail ns name env hct, htail], htail⟩
  · intro e he hct hdd hsd hcm
    have htail : deleteTail name env
        = (.fail e, [.deleteDeployment name, .deleteService name,
            .deleteConfigMap name]) := by
      unfold deleteTail
      rw [hcm, step_failed _ _ _ he, step_tolerated _ _ _ hsd,
        step_tolerated _ _ _ hdd]
    exact ⟨by rw [delete_outcome_of_tail ns name env hct, htail], htail⟩
  · intro e he hct hdd hsd hcm hp hsm
    have hauto : tolerateNotFound (deleteAutoscale name env.smclientPresent
        env.serviceMonitorDelete env.autoscaleDelete)
        = (.fail e, [.deleteServiceMonitor name]) := by
      rw [hp, hsm]
      unfold deleteAutoscale
      rw [if_pos rfl, step_failed _ _ _ he]
      unfold tolerateNotFound
      simp [he]
    have htail : deleteTail name env
        = (.fail e, [.deleteDeployment name, .deleteService name,
            .deleteConfigMap name, .deleteServiceMonitor name]) := by
      unfold deleteTail
      rw [hauto, step_tolerated _ _ _ hcm, step_tolerated _ _ _ hsd,
        step_tolerated _ _ _ hdd]
    exact ⟨by rw [delete_outcome_of_tail ns name env hct, htail], htail⟩
  · intro e he hct hdd hsd hcm hp had
    have hstep : (deleteAutoscale name env.smclientPresent
        env.serviceMonitorDelete env.autoscaleDelete).1 = .fail e := by
      unfold deleteAutoscale
      rw [hp, had]
      simp only [Bool.false_eq_true, if_false]
      rw [step_failed _ _ _ he]
    have htail : (deleteTail name env).1 = .fail e := by
      unfold deleteTail
      rw [step_tolerated _ _ _ hdd, step_tolerated _ _ _ hsd,
        step_tolerated _ _ _ hcm]
      exact tolerateNotFound_fail _ e he hstep
    rw [delete_outcome_of_tail ns name env hct]
    exact htail
  · intro e he hct hdd hsd hcm hp hsm had
    have hstep : (deleteAutoscale name env.smclientPresent
        env.serviceMonitorDelete env.autoscaleDelete).1 = .fail e := by
      unfold deleteAutoscale
      rw [hp, had]
      rw [if_pos rfl, step_tolerated _ _ _ hsm, step_failed _ _ _ he]
    have htail : (deleteTail name env).1 = .fail e := by
      unfold deleteTail
      rw [step_tolerated _ _ _ hdd, step_tolerated _ _ _ hsd,
        step_tolerated _ _ _ hcm]
      exact tolerateNotFound_fail _ e he hstep
    rw [delete_outcome_of_tail ns name env hct]
    exact htail

/-- Witness for C5: a function none of whose managed resources exist is
deleted without error, and a transient deployment-delete failure aborts the
path with that error. -/
theorem delete_idempotent_abort_witness :
    (deleteK8sResources "default" "foo"
      ⟨.error .notFound, .error .notFound, .error .notFound, .error .notFound,
        .error .notFound, true, .error .notFound, .error .notFound⟩).1
      = .ok ∧
    (deleteK8sResources "default" "foo"
      ⟨.error .notFound, .error .notFound, .error (.msg "conflict"),
        .error .notFound, .error .notFound, true, .error .notFound,
        .error .notFound⟩).1
      = .fail (.msg "conflict") := by
  constructor
  · exact (delete_idempotent_abort "default" "foo"
      ⟨.error .notFound, .error .notFound, .error .notFound, .error .notFound,
        .error .notFound, true, .error .notFound, .error .notFound⟩).1
      rfl rfl rfl rfl rfl rfl
  · exact ((delete_idempotent_abort "default" "foo"
      ⟨.error .notFound, .error .notFound, .error (.msg "conflict"),
        .error .notFound, .error .notFound, true, .error .notFound,
        .error .notFound⟩).2.2.1
      (.msg "conflict") rfl (by decide) rfl).1

/-- The per-item sweep loop enqueues exactly the qualifying objects' keys,
in listing order. -/
theorem collectKeys_eq (objs : List OwnedObject) :
    collectKeys objs
      = (objs.filter shouldEnqueue).map
          (fun o => Action.enqueue (ownerKey o)) := by
  induction objs with
  | nil => rfl
  | cons o rest ih =>
    obtain ⟨ns, refs⟩ := o
    cases refs with
    | nil => simpa [collectKeys, shouldEnqueue, List.filter_cons] using ih
    | cons r rs =>
      by_cases h : r.kind = funcKind ∧ r.apiVersion = funcAPI
      · simp [collectKeys, shouldEnqueue, ownerKey, h, List.filter_cons, ih]
      · simp [collectKeys, shouldEnqueue, ownerKey, h, List.filter_cons, ih]

/-- Every action of the per-item sweep loop is an enqueue. -/
theorem mem_collectKeys (objs : List OwnedObject) :
    ∀ a ∈ collectKeys objs, ∃ key, a = Action.enqueue key := by
  induction objs with
  | nil => intro a ha; simp [collectKeys] at ha
  | cons o rest ih =>
    intro a ha
    obtain ⟨ns, refs⟩ := o
    cases refs with
    | nil =>
      simp only [collectKeys] at ha
      exact ih a ha
    | cons r rs =>
      simp only [collectKeys] at ha
      by_cases h : r.kind = funcKind ∧ r.apiVersion = funcAPI
      · rw [if_pos h] at ha
        rcases List.mem_cons.mp ha with h' | h'
        · exact ⟨ns ++ "/" ++ r.name, h'⟩
        · exact ih a h'
      · rw [if_neg h] at ha
        exact ih a ha

/-- With all three listings succeeding, the sweep's trace is the
concatenation of the three collectors' enqueues. -/
theorem garbageCollect_ok (s d c : List OwnedObject) :
    garbageCollect (.ok s) (.ok d) (.ok c)
      = (.ok, collectKeys s ++ collectKeys d ++ collectKeys c) := by
  simp [garbageCollect, collectServices, collectDeployment, collectConfigMap]

/-- Whatever the listings answer, the sweep only ever enqueues. -/
theorem gc_trace_enqueues (svc dep cm : Except GoError (List OwnedObject)) :
    ∀ a ∈ (garbageCollect svc dep cm).2, ∃ key, a = Action.enqueue key := by
  intro a ha
  cases svc with
  | error e => simp [garbageCollect, collectServices] at ha
  | ok s =>
    cases dep with
    | error e =>
      simp only [garbageCollect, collectServices, collectDeployment,
        List.append_nil] at ha
      exact mem_collectKeys s a ha
    | ok d =>
      cases cm with
      | error e =>
        simp only [garbageCollect, collectServices, collectDeployment,
          collectConfigMap, List.append_nil] at ha
        rcases List.mem_append.mp ha with h | h
        · exact mem_collectKeys s a h
        · exact mem_collectKeys d a h
      | ok c =>
        simp only [garbageCollect, collectServices, collectDeployment,
          collectConfigMap] at ha
        rcases List.mem_append.mp ha with h | h
        · rcases List.mem_append.mp h with h' | h'
          · exact mem_collectKeys s a h'
          · exact mem_collectKeys d a h'
        · exact mem_collectKeys c a h

/-- C7: over successful listings the sweep enqueues the key
namespace/ownerName for exactly those objects whose owner-reference list is
non-empty and whose first owner reference names kind "Function" and
api-group "kubeless.io", in listing order over services, deployments and
configmaps; and every action the sweep ever performs is an enqueue — it
deletes nothing itself. -/
theorem gc_enqueue_only (s d c : List OwnedObject)
    (svc dep cm : Except GoError (List OwnedObject)) :
    (garbageCollect (.ok s) (.ok d) (.ok c)
      = (.ok,
          ((s.filter shouldEnqueue).map (fun o => Action.enqueue (ownerKey o)))
            ++ ((d.filter shouldEnqueue).map
                  (fun o => Action.enqueue (ownerKey o)))
            ++ ((c.filter shouldEnqueue).map
                  (fun o => Action.enqueue (ownerKey o))))) ∧
    (∀ a ∈ (garbageCollect svc dep cm).2, ∃ key, a = Action.enqueue key) := by
  constructor
  · rw [garbageCollect_ok, collectKeys_eq, collectKeys_eq, collectKeys_eq]
  · exact gc_trace_enqueues svc dep cm

/-- Witness for C7: a service owned by Function "fn1" makes the sweep
enqueue "ns1/fn1", and that action is an enqueue. -/
theorem gc_enqueue_only_witness :
    ∃ key, Action.enqueue "ns1/fn1" = Action.enqueue key := by
  exact (gc_enqueue_only [] [] []
    (.ok [⟨"ns1", [⟨"Function", "kubeless.io", "fn1"⟩]⟩]) (.ok []) (.ok [])).2
    (Action.enqueue "ns1/fn1") (by decide)

end Kubeless
